import Mathlib

/-!
Verification of the routing tree of the `web` repository (src/route.go).

The Go code is embedded shallowly:
* Go maps (the per-method `trees` map and the per-node `children` map)
  become association lists over `String` keys;
* Go `panic` calls inside `addRoute` and `childOrCreate` become an explicit
  `RouteError` value returned next to the (possibly partially mutated) state,
  because a Go panic aborts the call but leaves every pointer mutation that
  already happened in place;
* the Go regular-expression engine is abstracted: the check
  `regexp.MatchString("^:.+\\(.+\\)$", path)` is modelled exactly
  (see `regexShape`), while `regexp.Compile` becomes an arbitrary parameter
  `compile : String → Option Rx`, since the caller discards its error anyway.
-/

set_option autoImplicit false

namespace WebRoute

variable {H Rx : Type}

/-- Association-list read, modelling a Go map read `m[k]`. -/
def alookup {α : Type} (l : List (String × α)) (k : String) : Option α :=
  match l with
  | [] => none
  | (k₁, v) :: rest => if k₁ = k then some v else alookup rest k

/-- Association-list write, modelling a Go map assignment `m[k] = v`. -/
def aupsert {α : Type} (l : List (String × α)) (k : String) (v : α) :
    List (String × α) :=
  match l with
  | [] => [(k, v)]
  | (k₁, w) :: rest => if k₁ = k then (k, v) :: rest else (k₁, w) :: aupsert rest k v

/-- Helper for `splitSegs`: accumulates the current segment in reverse. -/
def splitSegsAux : List Char → List Char → List String
  | [], acc => [String.mk acc.reverse]
  | c :: rest, acc =>
    if c = '/' then String.mk acc.reverse :: splitSegsAux rest []
    else splitSegsAux rest (c :: acc)

/-- Model of Go `strings.Split(s, "/")` on the character list of `s`. -/
def splitSegs (cs : List Char) : List String := splitSegsAux cs []

/-- Whether a character list has an opening parenthesis at a position that is
neither its first nor its last element. -/
def innerParen : List Char → Bool
  | [] => false
  | _ :: t => t.dropLast.contains '('

/-- Model of the Go check `regexp.MatchString("^:.+\\(.+\\)$", s)`:
`s` must decompose as a colon, a nonempty newline-free block, an opening
parenthesis, a nonempty newline-free block and a closing parenthesis (the Go
dot matches every character except the newline).  The decomposition exists
precisely when `s` starts with a colon, ends with a closing parenthesis,
the middle is newline-free and some opening parenthesis sits strictly inside
the middle. -/
def regexShape (s : String) : Bool :=
  match s.data with
  | ':' :: rest =>
    match rest.getLast? with
    | some ')' => rest.dropLast.all (fun c => c != '\n') && innerParen rest.dropLast
    | _ => false
  | _ => false

/-- Model of the Go byte test `path[0] == ':'`. -/
def startsWithColon (s : String) : Bool :=
  match s.data with
  | ':' :: _ => true
  | _ => false

/-- The text between the colon and the first opening parenthesis, modelling
`path[1:strings.Index(path, "(")]`. -/
def regParamName (s : String) : String :=
  String.mk ((s.data.drop 1).takeWhile (fun c => c != '('))

/-- The text between the first opening parenthesis and the final character,
modelling `path[strings.Index(path, "(")+1 : len(path)-1]`. -/
def regExprText (s : String) : String :=
  String.mk (((s.data.dropWhile (fun c => c != '(')).drop 1).dropLast)

/-- The four node kinds of src/route.go (`nodeTypeStatic`, `nodeTypeReg`,
`nodeTypeParam`, `nodeTypeAny`). -/
inductive NodeType where
  | staticT : NodeType
  | regT : NodeType
  | paramT : NodeType
  | anyT : NodeType
deriving DecidableEq

/-- Every Go panic raised by `addRoute` or `childOrCreate`, one constructor
per panic site, carrying the strings interpolated into the panic message. -/
inductive RouteError where
  | emptyPath : RouteError
  | noLeadingSlash : RouteError
  | trailingSlash : RouteError
  | emptySegment : String → RouteError
  | rootConflict : RouteError
  | dupPathConflict : String → RouteError
  | starRegConflict : RouteError
  | starParamConflict : RouteError
  | regParamConflict : String → RouteError
  | regStarConflict : String → RouteError
  | regRegConflict : String → String → RouteError
  | paramRegConflict : String → RouteError
  | paramStarConflict : String → RouteError
  | paramParamConflict : String → String → RouteError
deriving DecidableEq, Repr

/-- The four panics raised by the validation checks of `addRoute`
(lines 29-39 and 57-59 of src/route.go). -/
def RouteError.isValidation : RouteError → Bool
  | .emptyPath => true
  | .noLeadingSlash => true
  | .trailingSlash => true
  | .emptySegment _ => true
  | _ => false

/-- A conflict is any registration failure that is not a validation failure. -/
def RouteError.isConflict (e : RouteError) : Bool := !e.isValidation

/-- The routing-tree node of src/route.go.  Fields, in order: `typ`, `path`,
`children` (static children keyed by segment text), `handler`, `starChild`,
`paramChild`, `paramName`, `regChild`, `regExpr`.  The compiled regular
expression is an abstract `Rx`; the handler an abstract `H`. -/
inductive Node (H Rx : Type) : Type where
  | mk : NodeType → String → List (String × Node H Rx) → Option H →
      Option (Node H Rx) → Option (Node H Rx) → String →
      Option (Node H Rx) → Option Rx → Node H Rx

def Node.typ : Node H Rx → NodeType
  | .mk t _ _ _ _ _ _ _ _ => t

def Node.path : Node H Rx → String
  | .mk _ p _ _ _ _ _ _ _ => p

def Node.children : Node H Rx → List (String × Node H Rx)
  | .mk _ _ c _ _ _ _ _ _ => c

def Node.handler : Node H Rx → Option H
  | .mk _ _ _ h _ _ _ _ _ => h

def Node.starChild : Node H Rx → Option (Node H Rx)
  | .mk _ _ _ _ st _ _ _ _ => st

def Node.paramChild : Node H Rx → Option (Node H Rx)
  | .mk _ _ _ _ _ pc _ _ _ => pc

def Node.paramName : Node H Rx → String
  | .mk _ _ _ _ _ _ pn _ _ => pn

def Node.regChild : Node H Rx → Option (Node H Rx)
  | .mk _ _ _ _ _ _ _ rc _ => rc

def Node.regExpr : Node H Rx → Option Rx
  | .mk _ _ _ _ _ _ _ _ re => re

def Node.setHandler : Node H Rx → H → Node H Rx
  | .mk t p c _ st pc pn rc re, h => .mk t p c (some h) st pc pn rc re

def Node.setStar : Node H Rx → Option (Node H Rx) → Node H Rx
  | .mk t p c ha _ pc pn rc re, v => .mk t p c ha v pc pn rc re

def Node.setParam : Node H Rx → Option (Node H Rx) → Node H Rx
  | .mk t p c ha st _ pn rc re, v => .mk t p c ha st v pn rc re

def Node.setReg : Node H Rx → Option (Node H Rx) → Node H Rx
  | .mk t p c ha st pc pn _ re, v => .mk t p c ha st pc pn v re

def Node.setChildren : Node H Rx → List (String × Node H Rx) → Node H Rx
  | .mk t p _ ha st pc pn rc re, c => .mk t p c ha st pc pn rc re

/-- A fresh static node, Go `&node{path: path, typ: nodeTypeStatic}`. -/
def freshStatic (s : String) : Node H Rx :=
  .mk .staticT s [] none none none "" none none

/-- A fresh wildcard node, Go `&node{path: "*", typ: nodeTypeAny}`. -/
def freshStar : Node H Rx :=
  .mk .anyT "*" [] none none none "" none none

/-- A fresh parameter node, Go
`&node{path: path, typ: nodeTypeParam, paramName: path[1:]}`. -/
def freshParam (s : String) : Node H Rx :=
  .mk .paramT s [] none none none (String.mk (s.data.drop 1)) none none

/-- A fresh regular-expression node, Go
`&node{path: path, typ: nodeTypeReg, regExpr: regExpr, paramName: paraName}`
where `regExpr, _ = regexp.Compile(expr)` discards the compile error. -/
def freshReg (compile : String → Option Rx) (s : String) : Node H Rx :=
  .mk .regT s [] none none none (regParamName s) none (compile (regExprText s))

/-- Faithful port of `(*node).childOrCreate` (src/route.go lines 131-202).
Returns the updated parent together with the found-or-created child, or the
panic the Go code would raise. -/
def Node.childOrCreate (compile : String → Option Rx) (n : Node H Rx)
    (s : String) : Except RouteError (Node H Rx × Node H Rx) :=
  if s = "*" then
    match n.starChild with
    | some c => .ok (n, c)
    | none =>
      if (n.regChild).isSome then .error .starRegConflict
      else if (n.paramChild).isSome then .error .starParamConflict
      else .ok (n.setStar (some freshStar), freshStar)
  else if startsWithColon s = true then
    if regexShape s = true then
      if (n.paramChild).isSome then .error (.regParamConflict s)
      else if (n.starChild).isSome then .error (.regStarConflict s)
      else
        match n.regChild with
        | some c =>
          if c.path = s then .ok (n, c) else .error (.regRegConflict c.path s)
        | none => .ok (n.setReg (some (freshReg compile s)), freshReg compile s)
    else
      if (n.regChild).isSome then .error (.paramRegConflict s)
      else if (n.starChild).isSome then .error (.paramStarConflict s)
      else
        match n.paramChild with
        | some c =>
          if c.path = s then .ok (n, c) else .error (.paramParamConflict c.path s)
        | none => .ok (n.setParam (some (freshParam s)), freshParam s)
  else
    match alookup n.children s with
    | some c => .ok (n, c)
    | none => .ok (n.setChildren (aupsert n.children s (freshStatic s)), freshStatic s)

/-- Writes a child back into the slot that `childOrCreate` resolved for
segment `s`.  In Go this is implicit pointer aliasing: the child returned by
`childOrCreate` is mutated in place, so the parent sees every later change. -/
def Node.install (n : Node H Rx) (s : String) (c : Node H Rx) : Node H Rx :=
  if s = "*" then n.setStar (some c)
  else if startsWithColon s = true then
    if regexShape s = true then n.setReg (some c) else n.setParam (some c)
  else n.setChildren (aupsert n.children s c)

/-- The segment loop of `addRoute` (src/route.go lines 56-67): walk or create
one node per segment, then attach the handler at the final node.  Returns the
updated subtree together with the panic the Go code would raise, if any; the
subtree keeps every node created before the panic, as the Go tree does. -/
def addSegs (compile : String → Option Rx) (n : Node H Rx) (path : String)
    (segs : List String) (h : H) : Node H Rx × Option RouteError :=
  match segs with
  | [] =>
    match n.handler with
    | some _ => (n, some (.dupPathConflict path))
    | none => (n.setHandler h, none)
  | s :: rest =>
    if s = "" then (n, some (.emptySegment path))
    else
      match n.childOrCreate compile s with
      | .error e => (n, some e)
      | .ok (n₁, c) =>
        match addSegs compile c path rest h with
        | (c₁, res) => (n₁.install s c₁, res)

/-- The per-method forest of src/route.go: `trees map[string]*node`. -/
abbrev Router (H Rx : Type) : Type := List (String × Node H Rx)

/-- `newRouter()`. -/
def newRouter : Router H Rx := []

/-- The root node created on first registration for a method:
`&node{path: "/", typ: nodeTypeStatic}`. -/
def rootNode : Node H Rx := freshStatic "/"

/-- Faithful port of `(*router).addRoute` (src/route.go lines 28-69).
Returns the updated router and the panic the Go code would raise, if any;
the router keeps every mutation made before the panic. -/
def addRoute (compile : String → Option Rx) (r : Router H Rx)
    (method path : String) (h : H) : Router H Rx × Option RouteError :=
  if path = "" then (r, some .emptyPath)
  else if path.data.head? ≠ some '/' then (r, some .noLeadingSlash)
  else if path ≠ "/" ∧ path.data.getLast? = some '/' then (r, some .trailingSlash)
  else
    let root := (alookup r method).getD rootNode
    if path = "/" then
      match root.handler with
      | some _ => (aupsert r method root, some .rootConflict)
      | none => (aupsert r method (root.setHandler h), none)
    else
      match addSegs compile root path (splitSegs (path.data.drop 1)) h with
      | (root₁, res) => (aupsert r method root₁, res)

/-- The lookup result of src/route.go: the matched node and the captured
path parameters. -/
structure MatchInfo (H Rx : Type) where
  n : Node H Rx
  pathParams : List (String × String)

/-- Modelled from the spec: `findRoute` is a stub in src/route.go
(`panic("implement me")`), so the per-node branch choice follows spec section
4.3 step 5: static children first, then the regex child when its compiled
pattern matches the whole segment, then the param child unconditionally, then
the wildcard child; the second component says which param name captures the
segment. -/
def chooseChild (rxMatch : Rx → String → Bool) (cur : Node H Rx) (s : String) :
    Option (Node H Rx × Option String) :=
  match alookup cur.children s with
  | some c => some (c, none)
  | none =>
    let viaReg : Option (Node H Rx × Option String) :=
      match cur.regChild with
      | some rc =>
        match rc.regExpr with
        | some rx => if rxMatch rx s then some (rc, some rc.paramName) else none
        | none => none
      | none => none
    match viaReg with
    | some x => some x
    | none =>
      match cur.paramChild with
      | some pc => some (pc, some pc.paramName)
      | none =>
        match cur.starChild with
        | some sc => some (sc, none)
        | none => none

/-- Modelled from the spec: the non-backtracking descent of spec section 4.3
steps 5-7, accumulating captured parameters with last-write-wins. -/
def findSegs (rxMatch : Rx → String → Bool) (cur : Node H Rx)
    (segs : List String) (params : List (String × String)) :
    Option (MatchInfo H Rx) :=
  match segs with
  | [] =>
    match cur.handler with
    | some _ => some ⟨cur, params⟩
    | none => none
  | s :: rest =>
    match chooseChild rxMatch cur s with
    | none => none
    | some (c, none) => findSegs rxMatch c rest params
    | some (c, some pn) => findSegs rxMatch c rest (aupsert params pn s)

/-- Modelled from the spec: `findRoute` is a stub in src/route.go, so this is
spec section 4.3: look up the root for the method, special-case the root path,
otherwise split and descend; `none` is the found-equals-false outcome. -/
def findRoute (rxMatch : Rx → String → Bool) (r : Router H Rx)
    (method path : String) : Option (MatchInfo H Rx) :=
  match alookup r method with
  | none => none
  | some root =>
    if path = "/" then
      match root.handler with
      | some _ => some ⟨root, []⟩
      | none => none
    else findSegs rxMatch root (splitSegs (path.data.drop 1)) []

/-- The routers reachable from `newRouter` by successful registrations. -/
inductive Reachable (compile : String → Option Rx) : Router H Rx → Prop where
  | base : Reachable compile newRouter
  | step {r r₁ : Router H Rx} {m p : String} {h : H} :
      Reachable compile r → addRoute compile r m p h = (r₁, none) →
      Reachable compile r₁

/-- The registration-time slot a segment resolves to: the same branching as
`childOrCreate` and `install`, read-only. -/
def slotChild (n : Node H Rx) (s : String) : Option (Node H Rx) :=
  if s = "*" then n.starChild
  else if startsWithColon s = true then
    (if regexShape s = true then n.regChild else n.paramChild)
  else alookup n.children s

/-- Walks the registration slots for a segment list. -/
def walk : Node H Rx → List String → Option (Node H Rx)
  | n, [] => some n
  | n, s :: rest =>
    match slotChild n s with
    | some c => walk c rest
    | none => none

/-- The handler a lookup result carries, `none` when nothing was found. -/
def foundHandler : Option (MatchInfo H Rx) → Option H
  | some mi => mi.n.handler
  | none => none

/-- Whether an optional registration outcome is a validation failure. -/
def errIsValidation : Option RouteError → Bool
  | some e => e.isValidation
  | none => false

/-- Whether an optional node is present and carries no handler. -/
def hNone : Option (Node H Rx) → Bool
  | some nd => nd.handler.isNone
  | none => false

/-- The error component of an `Except` result. -/
def excErr {ε α : Type} : Except ε α → Option ε
  | .error e => some e
  | .ok _ => none

/-- A node with no children, no child slots and no handler, such as every
freshly created node. -/
def emptyN (n : Node H Rx) : Prop :=
  n.children = [] ∧ n.starChild = none ∧ n.paramChild = none ∧
    n.regChild = none ∧ n.handler = none

/-- Invariant I1 of the spec: at most one of the param, regex and wildcard
slots of a node is occupied. -/
def exclusiveAt (n : Node H Rx) : Prop :=
  (n.paramChild = none ∧ n.regChild = none) ∨
    (n.paramChild = none ∧ n.starChild = none) ∨
    (n.regChild = none ∧ n.starChild = none)

/-- Static children are keyed by segments that are neither the star segment
nor colon-led, since `childOrCreate` diverts those to the other slots. -/
def keysOK (n : Node H Rx) : Prop :=
  ∀ kc ∈ n.children, kc.1 ≠ "*" ∧ startsWithColon kc.1 = false

def invP (n : Node H Rx) : Prop := exclusiveAt n ∧ keysOK n

/-- `P` holds at a node and hereditarily at every node below it. -/
inductive NodesOK (P : Node H Rx → Prop) : Node H Rx → Prop where
  | mk {n : Node H Rx} :
      P n →
      (∀ kc, kc ∈ n.children → NodesOK P kc.2) →
      (∀ c, n.starChild = some c → NodesOK P c) →
      (∀ c, n.paramChild = some c → NodesOK P c) →
      (∀ c, n.regChild = some c → NodesOK P c) →
      NodesOK P n

/-- The fresh node `childOrCreate` builds for a segment when the slot the
segment resolves to is empty. -/
def freshFor (compile : String → Option Rx) (s : String) : Node H Rx :=
  if s = "*" then freshStar
  else if startsWithColon s = true then
    (if regexShape s = true then freshReg compile s else freshParam s)
  else freshStatic s

/-- Concrete compile function for witnesses: every expression fails. -/
def cnone : String → Option Nat := fun _ => none

/-- Concrete matcher for witnesses: nothing matches. -/
def rxnone : Nat → String → Bool := fun _ _ => false

/-- Concrete compile function keeping the pattern source, mirroring a
successful Go compilation of a digits-only anchored pattern. -/
def cid : String → Option String := fun e => some e

/-- Whole-segment matching semantics of the one Go pattern the concrete
instances use: the anchored digits pattern accepts exactly the nonempty
all-digit segments, as Go regexp does. -/
def rxGo : String → String → Bool := fun rx s =>
  rx == "^[0-9]+$" && !s.isEmpty && s.data.all (fun c => c.isDigit)

/-!  Association-list lemmas. -/

theorem alookup_aupsert_self {α : Type} (l : List (String × α)) (k : String)
    (v : α) : alookup (aupsert l k v) k = some v := by
  induction l with
  | nil => simp [aupsert, alookup]
  | cons kv rest ih =>
    obtain ⟨k₁, w⟩ := kv
    by_cases h : k₁ = k <;> simp [aupsert, alookup, h, ih]

theorem alookup_aupsert_ne {α : Type} (l : List (String × α)) (k k₁ : String)
    (v : α) (h : k₁ ≠ k) : alookup (aupsert l k v) k₁ = alookup l k₁ := by
  induction l with
  | nil => simp [aupsert, alookup, Ne.symm h]
  | cons kv rest ih =>
    obtain ⟨k₂, w⟩ := kv
    by_cases h₂ : k₂ = k
    · subst h₂
      simp [aupsert, alookup, Ne.symm h]
    · simp [aupsert, alookup, h₂, ih]

theorem aupsert_lookup_eq {α : Type} (l : List (String × α)) (k : String)
    (v : α) (h : alookup l k = some v) : aupsert l k v = l := by
  induction l with
  | nil => simp [alookup] at h
  | cons kv rest ih =>
    obtain ⟨k₁, w⟩ := kv
    by_cases h₁ : k₁ = k
    · subst h₁
      simp [alookup] at h
      simp [aupsert, h]
    · simp [alookup, h₁] at h
      simp [aupsert, h₁, ih h]

theorem mem_aupsert {α : Type} {l : List (String × α)} {k : String} {v : α}
    {kc : String × α} (h : kc ∈ aupsert l k v) : kc = (k, v) ∨ kc ∈ l := by
  induction l with
  | nil => simpa [aupsert] using h
  | cons kv rest ih =>
    obtain ⟨k₁, w⟩ := kv
    by_cases h₁ : k₁ = k
    · subst h₁
      simp [aupsert] at h
      rcases h with h | h
      · exact Or.inl (by simp [h])
      · exact Or.inr (by simp [h])
    · simp [aupsert, h₁] at h
      rcases h with h | h
      · exact Or.inr (by simp [h])
      · rcases ih h with h₂ | h₂
        · exact Or.inl h₂
        · exact Or.inr (by simp [h₂])

theorem alookup_eq_none {α : Type} {l : List (String × α)} {k : String}
    (h : ∀ kc ∈ l, kc.1 ≠ k) : alookup l k = none := by
  induction l with
  | nil => rfl
  | cons kv rest ih =>
    obtain ⟨k₁, w⟩ := kv
    have h₁ : k₁ ≠ k := h (k₁, w) (by simp)
    simp [alookup, h₁]
    exact ih fun kc hm => h kc (by simp [hm])

theorem alookup_mem {α : Type} {l : List (String × α)} {k : String} {v : α}
    (h : alookup l k = some v) : (k, v) ∈ l := by
  induction l with
  | nil => simp [alookup] at h
  | cons kv rest ih =>
    obtain ⟨k₁, w⟩ := kv
    by_cases h₁ : k₁ = k
    · subst h₁
      simp [alookup] at h
      simp [h]
    · simp [alookup, h₁] at h
      simp [ih h]

/-!  Field lemmas for the node updaters. -/

@[simp] theorem setHandler_typ (n : Node H Rx) (h : H) : (n.setHandler h).typ = n.typ := by cases n; rfl

@[simp] theorem setHandler_path (n : Node H Rx) (h : H) : (n.setHandler h).path = n.path := by cases n; rfl

@[simp] theorem setHandler_children (n : Node H Rx) (h : H) : (n.setHandler h).children = n.children := by cases n; rfl

@[simp] theorem setHandler_handler (n : Node H Rx) (h : H) : (n.setHandler h).handler = some h := by cases n; rfl

@[simp] theorem setHandler_star (n : Node H Rx) (h : H) : (n.setHandler h).starChild = n.starChild := by cases n; rfl

@[simp] theorem setHandler_param (n : Node H Rx) (h : H) : (n.setHandler h).paramChild = n.paramChild := by cases n; rfl

@[simp] theorem setHandler_paramName (n : Node H Rx) (h : H) : (n.setHandler h).paramName = n.paramName := by cases n; rfl

@[simp] theorem setHandler_reg (n : Node H Rx) (h : H) : (n.setHandler h).regChild = n.regChild := by cases n; rfl

@[simp] theorem setHandler_regExpr (n : Node H Rx) (h : H) : (n.setHandler h).regExpr = n.regExpr := by cases n; rfl

@[simp] theorem setStar_typ (n : Node H Rx) (v : Option (Node H Rx)) : (n.setStar v).typ = n.typ := by cases n; rfl

@[simp] theorem setStar_path (n : Node H Rx) (v : Option (Node H Rx)) : (n.setStar v).path = n.path := by cases n; rfl

@[simp] theorem setStar_children (n : Node H Rx) (v : Option (Node H Rx)) : (n.setStar v).children = n.children := by cases n; rfl

@[simp] theorem setStar_handler (n : Node H Rx) (v : Option (Node H Rx)) : (n.setStar v).handler = n.handler := by cases n; rfl

@[simp] theorem setStar_star (n : Node H Rx) (v : Option (Node H Rx)) : (n.setStar v).starChild = v := by cases n; rfl

@[simp] theorem setStar_param (n : Node H Rx) (v : Option (Node H Rx)) : (n.setStar v).paramChild = n.paramChild := by cases n; rfl

@[simp] theorem setStar_paramName (n : Node H Rx) (v : Option (Node H Rx)) : (n.setStar v).paramName = n.paramName := by cases n; rfl

@[simp] theorem setStar_reg (n : Node H Rx) (v : Option (Node H Rx)) : (n.setStar v).regChild = n.regChild := by cases n; rfl

@[simp] theorem setStar_regExpr (n : Node H Rx) (v : Option (Node H Rx)) : (n.setStar v).regExpr = n.regExpr := by cases n; rfl

@[simp] theorem setParam_typ (n : Node H Rx) (v : Option (Node H Rx)) : (n.setParam v).typ = n.typ := by cases n; rfl

@[simp] theorem setParam_path (n : Node H Rx) (v : Option (Node H Rx)) : (n.setParam v).path = n.path := by cases n; rfl

@[simp] theorem setParam_children (n : Node H Rx) (v : Option (Node H Rx)) : (n.setParam v).children = n.children := by cases n; rfl

@[simp] theorem setParam_handler (n : Node H Rx) (v : Option (Node H Rx)) : (n.setParam v).handler = n.handler := by cases n; rfl

@[simp] theorem setParam_star (n : Node H Rx) (v : Option (Node H Rx)) : (n.setParam v).starChild = n.starChild := by cases n; rfl

@[simp] theorem setParam_param (n : Node H Rx) (v : Option (Node H Rx)) : (n.setParam v).paramChild = v := by cases n; rfl

@[simp] theorem setParam_paramName (n : Node H Rx) (v : Option (Node H Rx)) : (n.setParam v).paramName = n.paramName := by cases n; rfl

@[simp] theorem setParam_reg (n : Node H Rx) (v : Option (Node H Rx)) : (n.setParam v).regChild = n.regChild := by cases n; rfl

@[simp] theorem setParam_regExpr (n : Node H Rx) (v : Option (Node H Rx)) : (n.setParam v).regExpr = n.regExpr := by cases n; rfl

@[simp] theorem setReg_typ (n : Node H Rx) (v : Option (Node H Rx)) : (n.setReg v).typ = n.typ := by cases n; rfl

@[simp] theorem setReg_path (n : Node H Rx) (v : Option (Node H Rx)) : (n.setReg v).path = n.path := by cases n; rfl

@[simp] theorem setReg_children (n : Node H Rx) (v : Option (Node H Rx)) : (n.setReg v).children = n.children := by cases n; rfl

@[simp] theorem setReg_handler (n : Node H Rx) (v : Option (Node H Rx)) : (n.setReg v).handler = n.handler := by cases n; rfl

@[simp] theorem setReg_star (n : Node H Rx) (v : Option (Node H Rx)) : (n.setReg v).starChild = n.starChild := by cases n; rfl

@[simp] theorem setReg_param (n : Node H Rx) (v : Option (Node H Rx)) : (n.setReg v).paramChild = n.paramChild := by cases n; rfl

@[simp] theorem setReg_paramName (n : Node H Rx) (v : Option (Node H Rx)) : (n.setReg v).paramName = n.paramName := by cases n; rfl

@[simp] theorem setReg_reg (n : Node H Rx) (v : Option (Node H Rx)) : (n.setReg v).regChild = v := by cases n; rfl

@[simp] theorem setReg_regExpr (n : Node H Rx) (v : Option (Node H Rx)) : (n.setReg v).regExpr = n.regExpr := by cases n; rfl

@[simp] theorem setChildren_typ (n : Node H Rx) (v : List (String × Node H Rx)) : (n.setChildren v).typ = n.typ := by cases n; rfl

@[simp] theorem setChildren_path (n : Node H Rx) (v : List (String × Node H Rx)) : (n.setChildren v).path = n.path := by cases n; rfl

@[simp] theorem setChildren_children (n : Node H Rx) (v : List (String × Node H Rx)) : (n.setChildren v).children = v := by cases n; rfl

@[simp] theorem setChildren_handler (n : Node H Rx) (v : List (String × Node H Rx)) : (n.setChildren v).handler = n.handler := by cases n; rfl

@[simp] theorem setChildren_star (n : Node H Rx) (v : List (String × Node H Rx)) : (n.setChildren v).starChild = n.starChild := by cases n; rfl

@[simp] theorem setChildren_param (n : Node H Rx) (v : List (String × Node H Rx)) : (n.setChildren v).paramChild = n.paramChild := by cases n; rfl

@[simp] theorem setChildren_paramName (n : Node H Rx) (v : List (String × Node H Rx)) : (n.setChildren v).paramName = n.paramName := by cases n; rfl

@[simp] theorem setChildren_reg (n : Node H Rx) (v : List (String × Node H Rx)) : (n.setChildren v).regChild = n.regChild := by cases n; rfl

@[simp] theorem setChildren_regExpr (n : Node H Rx) (v : List (String × Node H Rx)) : (n.setChildren v).regExpr = n.regExpr := by cases n; rfl

theorem setStar_self (n : Node H Rx) (c : Node H Rx) (h : n.starChild = some c) : n.setStar (some c) = n := by
  cases n
  simp [Node.starChild] at h
  simp [Node.setStar, h]

theorem setParam_self (n : Node H Rx) (c : Node H Rx) (h : n.paramChild = some c) : n.setParam (some c) = n := by
  cases n
  simp [Node.paramChild] at h
  simp [Node.setParam, h]

theorem setReg_self (n : Node H Rx) (c : Node H Rx) (h : n.regChild = some c) : n.setReg (some c) = n := by
  cases n
  simp [Node.regChild] at h
  simp [Node.setReg, h]

theorem setChildren_self (n : Node H Rx) (v : List (String × Node H Rx)) (h : n.children = v) : n.setChildren v = n := by
  cases n
  simp [Node.children] at h
  simp [Node.setChildren, h]

/-!  Field lemmas for literal nodes. -/

@[simp] theorem typ_mk (t : NodeType) (p : String) (c : List (String × Node H Rx)) (ha : Option H) (st pc : Option (Node H Rx)) (pn : String) (rc : Option (Node H Rx)) (re : Option Rx) : (Node.mk t p c ha st pc pn rc re).typ = t := rfl

@[simp] theorem path_mk (t : NodeType) (p : String) (c : List (String × Node H Rx)) (ha : Option H) (st pc : Option (Node H Rx)) (pn : String) (rc : Option (Node H Rx)) (re : Option Rx) : (Node.mk t p c ha st pc pn rc re).path = p := rfl

@[simp] theorem children_mk (t : NodeType) (p : String) (c : List (String × Node H Rx)) (ha : Option H) (st pc : Option (Node H Rx)) (pn : String) (rc : Option (Node H Rx)) (re : Option Rx) : (Node.mk t p c ha st pc pn rc re).children = c := rfl

@[simp] theorem handler_mk (t : NodeType) (p : String) (c : List (String × Node H Rx)) (ha : Option H) (st pc : Option (Node H Rx)) (pn : String) (rc : Option (Node H Rx)) (re : Option Rx) : (Node.mk t p c ha st pc pn rc re).handler = ha := rfl

@[simp] theorem star_mk (t : NodeType) (p : String) (c : List (String × Node H Rx)) (ha : Option H) (st pc : Option (Node H Rx)) (pn : String) (rc : Option (Node H Rx)) (re : Option Rx) : (Node.mk t p c ha st pc pn rc re).starChild = st := rfl

@[simp] theorem param_mk (t : NodeType) (p : String) (c : List (String × Node H Rx)) (ha : Option H) (st pc : Option (Node H Rx)) (pn : String) (rc : Option (Node H Rx)) (re : Option Rx) : (Node.mk t p c ha st pc pn rc re).paramChild = pc := rfl

@[simp] theorem paramName_mk (t : NodeType) (p : String) (c : List (String × Node H Rx)) (ha : Option H) (st pc : Option (Node H Rx)) (pn : String) (rc : Option (Node H Rx)) (re : Option Rx) : (Node.mk t p c ha st pc pn rc re).paramName = pn := rfl

@[simp] theorem reg_mk (t : NodeType) (p : String) (c : List (String × Node H Rx)) (ha : Option H) (st pc : Option (Node H Rx)) (pn : String) (rc : Option (Node H Rx)) (re : Option Rx) : (Node.mk t p c ha st pc pn rc re).regChild = rc := rfl

@[simp] theorem regExpr_mk (t : NodeType) (p : String) (c : List (String × Node H Rx)) (ha : Option H) (st pc : Option (Node H Rx)) (pn : String) (rc : Option (Node H Rx)) (re : Option Rx) : (Node.mk t p c ha st pc pn rc re).regExpr = re := rfl

/-!  Segment-classification lemmas. -/

theorem startsWithColon_of_regexShape {s : String} (h : regexShape s = true) :
    startsWithColon s = true := by
  unfold regexShape at h
  unfold startsWithColon
  split at h
  all_goals first | rfl | simp at h

theorem star_not_colon : startsWithColon "*" = false := rfl

theorem ne_star_of_colon {s : String} (h : startsWithColon s = true) : s ≠ "*" := by
  intro he
  rw [he, star_not_colon] at h
  exact absurd h (by simp)

/-!  Fresh nodes are empty. -/

theorem emptyN_freshStatic (s : String) : emptyN (freshStatic s : Node H Rx) := by
  simp [emptyN, freshStatic]

theorem emptyN_freshStar : emptyN (freshStar : Node H Rx) := by
  simp [emptyN, freshStar]

theorem emptyN_freshParam (s : String) : emptyN (freshParam s : Node H Rx) := by
  simp [emptyN, freshParam]

theorem emptyN_freshReg (compile : String → Option Rx) (s : String) :
    emptyN (freshReg compile s : Node H Rx) := by
  simp [emptyN, freshReg]

theorem emptyN_freshFor (compile : String → Option Rx) (s : String) :
    emptyN (freshFor compile s : Node H Rx) := by
  unfold freshFor
  split_ifs <;>
    simp [emptyN_freshStar, emptyN_freshStatic, emptyN_freshParam, emptyN_freshReg]

theorem emptyN_rootNode : emptyN (rootNode : Node H Rx) := emptyN_freshStatic "/"

/-!  `childOrCreate` and `install` on empty nodes. -/

theorem childOrCreate_emptyN (compile : String → Option Rx) (n : Node H Rx)
    (s : String) (he : emptyN n) :
    n.childOrCreate compile s =
      .ok (n.install s (freshFor compile s), freshFor compile s) := by
  obtain ⟨hc, hst, hp, hr, hh⟩ := he
  by_cases h₁ : s = "*"
  · simp [Node.childOrCreate, Node.install, freshFor, h₁, hst, hp, hr]
  · by_cases h₂ : startsWithColon s = true
    · by_cases h₃ : regexShape s = true
      · simp [Node.childOrCreate, Node.install, freshFor, h₁, h₂, h₃, hst, hp, hr]
      · simp [Node.childOrCreate, Node.install, freshFor, h₁, h₂, h₃, hst, hp, hr]
    · simp [Node.childOrCreate, Node.install, freshFor, h₁, h₂, hc, alookup]

theorem install_handler (n : Node H Rx) (s : String) (c : Node H Rx) :
    (n.install s c).handler = n.handler := by
  unfold Node.install
  split_ifs <;> simp

theorem slotChild_install_self (n : Node H Rx) (s : String) (c : Node H Rx) :
    slotChild (n.install s c) s = some c := by
  unfold slotChild Node.install
  split_ifs <;> simp [alookup_aupsert_self]

/-!  The segment loop on a fresh subtree: the only panic it can raise is the
empty-segment one, raised exactly when an empty segment occurs. -/

theorem addSegs_err_emptyN (compile : String → Option Rx) (path : String)
    (h : H) :
    ∀ (segs : List String) (n : Node H Rx), emptyN n →
      (addSegs compile n path segs h).2 =
        if "" ∈ segs then some (.emptySegment path) else none := by
  intro segs
  induction segs with
  | nil =>
    intro n he
    simp [addSegs, he.2.2.2.2]
  | cons s rest ih =>
    intro n he
    by_cases hs : s = ""
    · simp [addSegs, hs]
    · have hcoc := childOrCreate_emptyN compile n s he
      have h₂ := ih (freshFor compile s) (emptyN_freshFor compile s)
      cases haux : addSegs compile (freshFor compile s) path rest h with
      | mk c₁ res =>
        rw [haux] at h₂
        simp [addSegs, hs, hcoc, haux, h₂, Ne.symm hs]

/-!  Facts about successful `childOrCreate` results. -/

theorem install_path (n : Node H Rx) (s : String) (c : Node H Rx) :
    (n.install s c).path = n.path := by
  unfold Node.install
  split_ifs <;> simp

theorem install_install (n : Node H Rx) (s : String) (c : Node H Rx) :
    (n.install s c).install s c = n.install s c := by
  unfold Node.install
  split_ifs
  · exact setStar_self _ _ (by simp)
  · exact setReg_self _ _ (by simp)
  · exact setParam_self _ _ (by simp)
  · refine setChildren_self _ _ ?_
    simp [aupsert_lookup_eq _ s c (alookup_aupsert_self _ s c)]

theorem childOrCreate_parent_path (compile : String → Option Rx)
    {n nA c : Node H Rx} {s : String}
    (hcoc : n.childOrCreate compile s = .ok (nA, c)) : nA.path = n.path := by
  unfold Node.childOrCreate at hcoc
  split_ifs at hcoc <;>
    (try split at hcoc) <;> (try split_ifs at hcoc) <;>
    simp [Except.ok.injEq, Prod.mk.injEq] at hcoc <;>
    simp [← hcoc.1]

theorem childOrCreate_shape_ok (compile : String → Option Rx)
    {n nA c : Node H Rx} {s : String} (hsh : regexShape s = true)
    (hcoc : n.childOrCreate compile s = .ok (nA, c)) :
    nA.paramChild = none ∧ nA.starChild = none ∧ c.path = s ∧
      nA.children = n.children ∧ nA.regChild = some c := by
  have hcolon := startsWithColon_of_regexShape hsh
  have hstar := ne_star_of_colon hcolon
  unfold Node.childOrCreate at hcoc
  rw [if_neg hstar, if_pos hcolon, if_pos hsh] at hcoc
  cases hp : n.paramChild with
  | some c₀ => simp [hp] at hcoc
  | none =>
    cases hst : n.starChild with
    | some c₀ => simp [hp, hst] at hcoc
    | none =>
      cases hr : n.regChild with
      | some c₀ =>
        simp [hp, hst, hr] at hcoc
        by_cases hcp : c₀.path = s
        · simp [hcp] at hcoc
          obtain ⟨h₁, h₂⟩ := hcoc
          subst h₁
          simp [hp, hst, ← h₂, hcp, hr]
        · simp [hcp] at hcoc
      | none =>
        simp [hp, hst, hr] at hcoc
        obtain ⟨h₁, h₂⟩ := hcoc
        subst h₁
        simp [hp, hst, ← h₂, freshReg]

theorem childOrCreate_param_ok (compile : String → Option Rx)
    {n nA c : Node H Rx} {s : String} (hcolon : startsWithColon s = true)
    (hsh : regexShape s = false)
    (hcoc : n.childOrCreate compile s = .ok (nA, c)) :
    nA.regChild = none ∧ nA.starChild = none ∧ c.path = s ∧
      nA.children = n.children ∧ nA.paramChild = some c := by
  have hstar := ne_star_of_colon hcolon
  unfold Node.childOrCreate at hcoc
  rw [if_neg hstar, if_pos hcolon, if_neg (by simp [hsh])] at hcoc
  cases hr : n.regChild with
  | some c₀ => simp [hr] at hcoc
  | none =>
    cases hst : n.starChild with
    | some c₀ => simp [hr, hst] at hcoc
    | none =>
      cases hp : n.paramChild with
      | some c₀ =>
        simp [hr, hst, hp] at hcoc
        by_cases hcp : c₀.path = s
        · simp [hcp] at hcoc
          obtain ⟨h₁, h₂⟩ := hcoc
          subst h₁
          simp [hr, hst, ← h₂, hcp, hp]
        · simp [hcp] at hcoc
      | none =>
        simp [hr, hst, hp] at hcoc
        obtain ⟨h₁, h₂⟩ := hcoc
        subst h₁
        simp [hr, hst, ← h₂, freshParam]

theorem childOrCreate_install (compile : String → Option Rx)
    {n nA c : Node H Rx} {s : String}
    (hcoc : n.childOrCreate compile s = .ok (nA, c)) (c₁ : Node H Rx)
    (hp : c₁.path = c.path) :
    (nA.install s c₁).childOrCreate compile s = .ok (nA.install s c₁, c₁) := by
  by_cases h₁ : s = "*"
  · subst h₁
    simp [Node.childOrCreate, Node.install, star_not_colon]
  · by_cases h₂ : startsWithColon s = true
    · by_cases h₃ : regexShape s = true
      · obtain ⟨hpc, hst, hcp, -, -⟩ := childOrCreate_shape_ok compile h₃ hcoc
        simp [Node.childOrCreate, Node.install, h₁, h₂, h₃, hpc, hst, hp, hcp]
      · obtain ⟨hrc, hst, hcp, -, -⟩ :=
          childOrCreate_param_ok compile h₂ (by simp [h₃]) hcoc
        simp [Node.childOrCreate, Node.install, h₁, h₂, h₃, hrc, hst, hp, hcp]
    · simp [Node.childOrCreate, Node.install, h₁, h₂, alookup_aupsert_self]

/-!  The first component of the segment loop keeps the path of its root. -/

theorem addSegs_fst_path (compile : String → Option Rx) (path : String)
    (h : H) :
    ∀ (segs : List String) (n : Node H Rx),
      (addSegs compile n path segs h).1.path = n.path := by
  intro segs
  induction segs with
  | nil =>
    intro n
    cases hh : n.handler <;> simp [addSegs, hh]
  | cons s rest ih =>
    intro n
    by_cases hs : s = ""
    · simp [addSegs, hs]
    · cases hcoc : n.childOrCreate compile s with
      | error e => simp [addSegs, hs, hcoc]
      | ok pc =>
        obtain ⟨nA, c⟩ := pc
        cases haux : addSegs compile c path rest h with
        | mk c₁ res =>
          simp [addSegs, hs, hcoc, haux, install_path,
            childOrCreate_parent_path compile hcoc]

/-!  Replaying a successful registration hits the duplicate-path panic. -/

theorem addSegs_replay (compile : String → Option Rx) (path : String)
    (h h₁ : H) :
    ∀ (segs : List String) (n n₁ : Node H Rx),
      addSegs compile n path segs h = (n₁, none) →
      addSegs compile n₁ path segs h₁ = (n₁, some (.dupPathConflict path)) := by
  intro segs
  induction segs with
  | nil =>
    intro n n₁ hfirst
    cases hh : n.handler with
    | some hv => simp [addSegs, hh] at hfirst
    | none =>
      simp [addSegs, hh] at hfirst
      rw [← hfirst]
      simp [addSegs]
  | cons s rest ih =>
    intro n n₁ hfirst
    by_cases hs : s = ""
    · simp [addSegs, hs] at hfirst
    · cases hcoc : n.childOrCreate compile s with
      | error e => simp [addSegs, hs, hcoc] at hfirst
      | ok pc =>
        obtain ⟨nA, c⟩ := pc
        cases haux : addSegs compile c path rest h with
        | mk c₁ res =>
          simp [addSegs, hs, hcoc, haux] at hfirst
          obtain ⟨hN, hres⟩ := hfirst
          subst hres
          have hrep := ih c c₁ haux
          have hpath : c₁.path = c.path := by
            have := addSegs_fst_path compile path h rest c
            rw [haux] at this
            exact this
          have hre := childOrCreate_install compile hcoc c₁ hpath
          rw [hN] at hre
          simp [addSegs, hs, hre, hrep]
          rw [← hN, install_install]

/-!  The hereditary invariant: exclusivity of the three child slots and the
shape of the static keys, preserved by every registration step. -/

theorem NodesOK.self {P : Node H Rx → Prop} {n : Node H Rx}
    (h : NodesOK P n) : P n := by
  cases h
  assumption

theorem NodesOK.child {P : Node H Rx → Prop} {n : Node H Rx}
    (h : NodesOK P n) : ∀ kc, kc ∈ n.children → NodesOK P kc.2 := by
  cases h
  assumption

theorem NodesOK.star {P : Node H Rx → Prop} {n : Node H Rx}
    (h : NodesOK P n) : ∀ c, n.starChild = some c → NodesOK P c := by
  cases h
  assumption

theorem NodesOK.param {P : Node H Rx → Prop} {n : Node H Rx}
    (h : NodesOK P n) : ∀ c, n.paramChild = some c → NodesOK P c := by
  cases h
  assumption

theorem NodesOK.reg {P : Node H Rx → Prop} {n : Node H Rx}
    (h : NodesOK P n) : ∀ c, n.regChild = some c → NodesOK P c := by
  cases h
  assumption

theorem NodesOK_mono {P Q : Node H Rx → Prop} (himp : ∀ m, P m → Q m) :
    ∀ {n : Node H Rx}, NodesOK P n → NodesOK Q n := by
  intro n h
  induction h with
  | mk hp hch hst hpp hrr ihch ihst ihpp ihrr =>
    exact NodesOK.mk (himp _ hp) ihch ihst ihpp ihrr

theorem NodesOK_empty {n : Node H Rx} (he : emptyN n) : NodesOK invP n := by
  obtain ⟨hc, hst, hp, hr, -⟩ := he
  refine NodesOK.mk ⟨Or.inl ⟨hp, hr⟩, ?_⟩ ?_ ?_ ?_ ?_
  · intro kc hkc
    rw [hc] at hkc
    simp at hkc
  · intro kc hkc
    rw [hc] at hkc
    simp at hkc
  · intro c hcc
    rw [hst] at hcc
    simp at hcc
  · intro c hcc
    rw [hp] at hcc
    simp at hcc
  · intro c hcc
    rw [hr] at hcc
    simp at hcc

theorem NodesOK_rootNode : NodesOK invP (rootNode : Node H Rx) :=
  NodesOK_empty emptyN_rootNode

theorem NodesOK_setHandler {n : Node H Rx} (hok : NodesOK invP n) (h : H) :
    NodesOK invP (n.setHandler h) := by
  refine NodesOK.mk ⟨?_, ?_⟩ ?_ ?_ ?_ ?_
  · rcases hok.self.1 with h₁ | h₁ | h₁
    · exact Or.inl (by simp [h₁.1, h₁.2])
    · exact Or.inr (Or.inl (by simp [h₁.1, h₁.2]))
    · exact Or.inr (Or.inr (by simp [h₁.1, h₁.2]))
  · intro kc hkc
    rw [setHandler_children] at hkc
    exact hok.self.2 kc hkc
  · intro kc hkc
    rw [setHandler_children] at hkc
    exact hok.child kc hkc
  · intro c hcc
    rw [setHandler_star] at hcc
    exact hok.star c hcc
  · intro c hcc
    rw [setHandler_param] at hcc
    exact hok.param c hcc
  · intro c hcc
    rw [setHandler_reg] at hcc
    exact hok.reg c hcc

theorem NodesOK_setStar {n c₀ : Node H Rx} (hok : NodesOK invP n)
    (hparam : n.paramChild = none) (hreg : n.regChild = none)
    (hc₀ : NodesOK invP c₀) : NodesOK invP (n.setStar (some c₀)) := by
  refine NodesOK.mk ⟨Or.inl (by simp [hparam, hreg]), ?_⟩ ?_ ?_ ?_ ?_
  · intro kc hkc
    rw [setStar_children] at hkc
    exact hok.self.2 kc hkc
  · intro kc hkc
    rw [setStar_children] at hkc
    exact hok.child kc hkc
  · intro c hcc
    rw [setStar_star] at hcc
    cases hcc
    exact hc₀
  · intro c hcc
    rw [setStar_param] at hcc
    exact hok.param c hcc
  · intro c hcc
    rw [setStar_reg] at hcc
    exact hok.reg c hcc

theorem NodesOK_setReg {n c₀ : Node H Rx} (hok : NodesOK invP n)
    (hparam : n.paramChild = none) (hstar : n.starChild = none)
    (hc₀ : NodesOK invP c₀) : NodesOK invP (n.setReg (some c₀)) := by
  refine NodesOK.mk ⟨Or.inr (Or.inl (by simp [hparam, hstar])), ?_⟩ ?_ ?_ ?_ ?_
  · intro kc hkc
    rw [setReg_children] at hkc
    exact hok.self.2 kc hkc
  · intro kc hkc
    rw [setReg_children] at hkc
    exact hok.child kc hkc
  · intro c hcc
    rw [setReg_star] at hcc
    exact hok.star c hcc
  · intro c hcc
    rw [setReg_param] at hcc
    exact hok.param c hcc
  · intro c hcc
    rw [setReg_reg] at hcc
    cases hcc
    exact hc₀

theorem NodesOK_setParam {n c₀ : Node H Rx} (hok : NodesOK invP n)
    (hreg : n.regChild = none) (hstar : n.starChild = none)
    (hc₀ : NodesOK invP c₀) : NodesOK invP (n.setParam (some c₀)) := by
  refine NodesOK.mk ⟨Or.inr (Or.inr (by simp [hreg, hstar])), ?_⟩ ?_ ?_ ?_ ?_
  · intro kc hkc
    rw [setParam_children] at hkc
    exact hok.self.2 kc hkc
  · intro kc hkc
    rw [setParam_children] at hkc
    exact hok.child kc hkc
  · intro c hcc
    rw [setParam_star] at hcc
    exact hok.star c hcc
  · intro c hcc
    rw [setParam_param] at hcc
    cases hcc
    exact hc₀
  · intro c hcc
    rw [setParam_reg] at hcc
    exact hok.reg c hcc

theorem NodesOK_setChildren_aupsert {n c₀ : Node H Rx} {s : String}
    (hok : NodesOK invP n) (hs1 : s ≠ "*") (hs2 : startsWithColon s = false)
    (hc₀ : NodesOK invP c₀) :
    NodesOK invP (n.setChildren (aupsert n.children s c₀)) := by
  refine NodesOK.mk ⟨?_, ?_⟩ ?_ ?_ ?_ ?_
  · rcases hok.self.1 with h₁ | h₁ | h₁
    · exact Or.inl (by simp [h₁.1, h₁.2])
    · exact Or.inr (Or.inl (by simp [h₁.1, h₁.2]))
    · exact Or.inr (Or.inr (by simp [h₁.1, h₁.2]))
  · intro kc hkc
    rw [setChildren_children] at hkc
    rcases mem_aupsert hkc with h₁ | h₁
    · rw [h₁]
      exact ⟨hs1, hs2⟩
    · exact hok.self.2 kc h₁
  · intro kc hkc
    rw [setChildren_children] at hkc
    rcases mem_aupsert hkc with h₁ | h₁
    · rw [h₁]
      exact hc₀
    · exact hok.child kc h₁
  · intro c hcc
    rw [setChildren_star] at hcc
    exact hok.star c hcc
  · intro c hcc
    rw [setChildren_param] at hcc
    exact hok.param c hcc
  · intro c hcc
    rw [setChildren_reg] at hcc
    exact hok.reg c hcc

/-- Exclusivity at a node with an occupied wildcard slot forces the other two
slots empty. -/
theorem exclusive_star {n c₀ : Node H Rx} (hex : exclusiveAt n)
    (hst : n.starChild = some c₀) :
    n.paramChild = none ∧ n.regChild = none := by
  rcases hex with h₁ | h₁ | h₁
  · exact h₁
  · rw [h₁.2] at hst
    simp at hst
  · rw [h₁.2] at hst
    simp at hst

theorem childOrCreate_star_ok (compile : String → Option Rx)
    {n nA c : Node H Rx} (hex : exclusiveAt n)
    (hcoc : n.childOrCreate compile "*" = .ok (nA, c)) :
    nA.paramChild = none ∧ nA.regChild = none ∧ nA.starChild = some c ∧
      nA.children = n.children := by
  unfold Node.childOrCreate at hcoc
  rw [if_pos rfl] at hcoc
  cases hst : n.starChild with
  | some c₀ =>
    simp [hst] at hcoc
    obtain ⟨h₁, h₂⟩ := hcoc
    subst h₁
    obtain ⟨hp, hr⟩ := exclusive_star hex hst
    simp [hp, hr, hst, h₂]
  | none =>
    cases hr : n.regChild with
    | some c₀ => simp [hst, hr] at hcoc
    | none =>
      cases hp : n.paramChild with
      | some c₀ => simp [hst, hr, hp] at hcoc
      | none =>
        simp [hst, hr, hp] at hcoc
        obtain ⟨h₁, h₂⟩ := hcoc
        subst h₁
        simp [hp, hr, ← h₂]

theorem childOrCreate_pres (compile : String → Option Rx)
    {n nA c : Node H Rx} {s : String}
    (hcoc : n.childOrCreate compile s = .ok (nA, c))
    (hok : NodesOK invP n) : NodesOK invP nA ∧ NodesOK invP c := by
  by_cases h₁ : s = "*"
  · subst h₁
    unfold Node.childOrCreate at hcoc
    rw [if_pos rfl] at hcoc
    cases hst : n.starChild with
    | some c₀ =>
      simp [hst] at hcoc
      obtain ⟨h₂, h₃⟩ := hcoc
      subst h₂
      exact ⟨hok, h₃ ▸ hok.star c₀ hst⟩
    | none =>
      cases hr : n.regChild with
      | some c₀ => simp [hst, hr] at hcoc
      | none =>
        cases hp : n.paramChild with
        | some c₀ => simp [hst, hr, hp] at hcoc
        | none =>
          simp [hst, hr, hp] at hcoc
          obtain ⟨h₂, h₃⟩ := hcoc
          subst h₂
          refine ⟨NodesOK_setStar hok hp hr (NodesOK_empty emptyN_freshStar), ?_⟩
          exact h₃ ▸ NodesOK_empty emptyN_freshStar
  · by_cases h₂ : startsWithColon s = true
    · by_cases h₃ : regexShape s = true
      · unfold Node.childOrCreate at hcoc
        rw [if_neg h₁, if_pos h₂, if_pos h₃] at hcoc
        cases hp : n.paramChild with
        | some c₀ => simp [hp] at hcoc
        | none =>
          cases hst : n.starChild with
          | some c₀ => simp [hp, hst] at hcoc
          | none =>
            cases hr : n.regChild with
            | some c₀ =>
              simp [hp, hst, hr] at hcoc
              by_cases hcp : c₀.path = s
              · simp [hcp] at hcoc
                obtain ⟨h₄, h₅⟩ := hcoc
                subst h₄
                exact ⟨hok, h₅ ▸ hok.reg c₀ hr⟩
              · simp [hcp] at hcoc
            | none =>
              simp [hp, hst, hr] at hcoc
              obtain ⟨h₄, h₅⟩ := hcoc
              subst h₄
              refine ⟨NodesOK_setReg hok hp hst (NodesOK_empty (emptyN_freshReg compile s)), ?_⟩
              exact h₅ ▸ NodesOK_empty (emptyN_freshReg compile s)
      · unfold Node.childOrCreate at hcoc
        rw [if_neg h₁, if_pos h₂, if_neg (by simp [h₃])] at hcoc
        cases hr : n.regChild with
        | some c₀ => simp [hr] at hcoc
        | none =>
          cases hst : n.starChild with
          | some c₀ => simp [hr, hst] at hcoc
          | none =>
            cases hp : n.paramChild with
            | some c₀ =>
              simp [hr, hst, hp] at hcoc
              by_cases hcp : c₀.path = s
              · simp [hcp] at hcoc
                obtain ⟨h₄, h₅⟩ := hcoc
                subst h₄
                exact ⟨hok, h₅ ▸ hok.param c₀ hp⟩
              · simp [hcp] at hcoc
            | none =>
              simp [hr, hst, hp] at hcoc
              obtain ⟨h₄, h₅⟩ := hcoc
              subst h₄
              refine ⟨NodesOK_setParam hok hr hst (NodesOK_empty (emptyN_freshParam s)), ?_⟩
              exact h₅ ▸ NodesOK_empty (emptyN_freshParam s)
    · unfold Node.childOrCreate at hcoc
      rw [if_neg h₁, if_neg (by simp [h₂])] at hcoc
      cases hl : alookup n.children s with
      | some c₀ =>
        simp [hl] at hcoc
        obtain ⟨h₄, h₅⟩ := hcoc
        subst h₄
        exact ⟨hok, h₅ ▸ hok.child (s, c₀) (alookup_mem hl)⟩
      | none =>
        simp [hl] at hcoc
        obtain ⟨h₄, h₅⟩ := hcoc
        subst h₄
        refine ⟨NodesOK_setChildren_aupsert hok h₁ (by simp [h₂]) (NodesOK_empty (emptyN_freshStatic s)), ?_⟩
        exact h₅ ▸ NodesOK_empty (emptyN_freshStatic s)

theorem NodesOK_addSegs (compile : String → Option Rx) (path : String)
    (h : H) :
    ∀ (segs : List String) (n : Node H Rx), NodesOK invP n →
      NodesOK invP (addSegs compile n path segs h).1 := by
  intro segs
  induction segs with
  | nil =>
    intro n hok
    cases hh : n.handler with
    | some hv =>
      simp [addSegs, hh]
      exact hok
    | none =>
      simp [addSegs, hh]
      exact NodesOK_setHandler hok h
  | cons s rest ih =>
    intro n hok
    by_cases hs : s = ""
    · simp [addSegs, hs]
      exact hok
    · cases hcoc : n.childOrCreate compile s with
      | error e =>
        simp [addSegs, hs, hcoc]
        exact hok
      | ok pc =>
        obtain ⟨nA, c⟩ := pc
        obtain ⟨hA, hc⟩ := childOrCreate_pres compile hcoc hok
        cases haux : addSegs compile c path rest h with
        | mk c₁ res =>
          have hc₁ : NodesOK invP c₁ := by
            have h₀ := ih c hc
            rw [haux] at h₀
            exact h₀
          simp [addSegs, hs, hcoc, haux]
          by_cases h₁ : s = "*"
          · subst h₁
            obtain ⟨hp, hr, -, -⟩ := childOrCreate_star_ok compile hok.self.1 hcoc
            simpa [Node.install] using NodesOK_setStar hA hp hr hc₁
          · by_cases h₂ : startsWithColon s = true
            · by_cases h₃ : regexShape s = true
              · obtain ⟨hp, hst, -, -, -⟩ := childOrCreate_shape_ok compile h₃ hcoc
                simpa [Node.install, h₁, h₂, h₃] using NodesOK_setReg hA hp hst hc₁
              · obtain ⟨hr, hst, -, -, -⟩ :=
                  childOrCreate_param_ok compile h₂ (by simp [h₃]) hcoc
                simpa [Node.install, h₁, h₂, h₃] using NodesOK_setParam hA hr hst hc₁
            · simpa [Node.install, h₁, h₂] using
                NodesOK_setChildren_aupsert hA h₁ (by simp [h₂]) hc₁

theorem addRoute_inv (compile : String → Option Rx) {r r₁ : Router H Rx}
    {m p : String} {h : H} {res : Option RouteError}
    (hadd : addRoute compile r m p h = (r₁, res))
    (hinv : ∀ m₀ root, alookup r m₀ = some root → NodesOK invP root) :
    ∀ m₀ root, alookup r₁ m₀ = some root → NodesOK invP root := by
  have haup : ∀ root₂ : Node H Rx, NodesOK invP root₂ →
      ∀ m₀ root, alookup (aupsert r m root₂) m₀ = some root → NodesOK invP root := by
    intro root₂ hok₂ m₀ root hl
    by_cases hm : m₀ = m
    · subst hm
      rw [alookup_aupsert_self] at hl
      cases hl
      exact hok₂
    · rw [alookup_aupsert_ne _ _ _ _ hm] at hl
      exact hinv m₀ root hl
  have hroot₀ : NodesOK invP ((alookup r m).getD (rootNode : Node H Rx)) := by
    cases hl : alookup r m with
    | some rt => simpa using hinv m rt hl
    | none => simpa using (NodesOK_rootNode : NodesOK invP (rootNode : Node H Rx))
  by_cases h₁ : p = ""
  · simp [addRoute, h₁] at hadd
    obtain ⟨h₂, -⟩ := hadd
    subst h₂
    exact hinv
  · by_cases h₂ : p.data.head? = some '/'
    · by_cases h₄ : p = "/"
      · cases hh : ((alookup r m).getD (rootNode : Node H Rx)).handler with
        | some hv =>
          simp [addRoute, h₁, h₂, h₄, hh] at hadd
          obtain ⟨h₅, -⟩ := hadd
          subst h₅
          exact haup _ hroot₀
        | none =>
          simp [addRoute, h₁, h₂, h₄, hh] at hadd
          obtain ⟨h₅, -⟩ := hadd
          subst h₅
          exact haup _ (NodesOK_setHandler hroot₀ h)
      · by_cases h₃ : p.data.getLast? = some '/'
        · simp [addRoute, h₁, h₂, h₃, h₄] at hadd
          obtain ⟨h₅, -⟩ := hadd
          subst h₅
          exact hinv
        · simp [addRoute, h₁, h₂, h₃, h₄] at hadd
          obtain ⟨h₅, -⟩ := hadd
          subst h₅
          refine haup _ ?_
          have h₆ := NodesOK_addSegs compile p h (splitSegs p.data.tail) _ hroot₀
          simpa using h₆
    · simp [addRoute, h₁, h₂] at hadd
      obtain ⟨h₃, -⟩ := hadd
      subst h₃
      exact hinv

theorem Reachable_inv (compile : String → Option Rx) {r : Router H Rx}
    (hr : Reachable compile r) :
    ∀ m root, alookup r m = some root → NodesOK invP root := by
  induction hr with
  | base =>
    intro m root hl
    simp [newRouter, alookup] at hl
  | step hprev hadd ih => exact addRoute_inv _ hadd ih

/-!  After a successful registration with no regex-shaped segment, the
spec-modelled lookup retraces exactly the registered branch. -/

theorem findSegs_after_addSegs (compile : String → Option Rx)
    (rxM : Rx → String → Bool) (path : String) (h : H) :
    ∀ (segs : List String) (n n₁ : Node H Rx)
      (params : List (String × String)),
      NodesOK invP n → (∀ s ∈ segs, regexShape s = false) →
      addSegs compile n path segs h = (n₁, none) →
      foundHandler (findSegs rxM n₁ segs params) = some h := by
  intro segs
  induction segs with
  | nil =>
    intro n n₁ params hok hsh hfirst
    cases hh : n.handler with
    | some hv => simp [addSegs, hh] at hfirst
    | none =>
      simp [addSegs, hh] at hfirst
      rw [← hfirst]
      simp [findSegs, foundHandler]
  | cons s rest ih =>
    intro n n₁ params hok hsh hfirst
    by_cases hs : s = ""
    · simp [addSegs, hs] at hfirst
    · cases hcoc : n.childOrCreate compile s with
      | error e => simp [addSegs, hs, hcoc] at hfirst
      | ok pc =>
        obtain ⟨nA, c⟩ := pc
        obtain ⟨hA, hc⟩ := childOrCreate_pres compile hcoc hok
        cases haux : addSegs compile c path rest h with
        | mk c₁ res =>
          simp [addSegs, hs, hcoc, haux] at hfirst
          obtain ⟨hN, hres⟩ := hfirst
          subst hres
          rw [← hN]
          have hrest : ∀ s₁ ∈ rest, regexShape s₁ = false :=
            fun s₁ hm => hsh s₁ (by simp [hm])
          by_cases h₁ : s = "*"
          · subst h₁
            obtain ⟨hp, hr, -, hch⟩ := childOrCreate_star_ok compile hok.self.1 hcoc
            have hlk : alookup nA.children "*" = none := by
              rw [hch]
              exact alookup_eq_none (fun kc hm => (hok.self.2 kc hm).1)
            simp [Node.install, findSegs, chooseChild, hlk, hp, hr]
            exact ih c c₁ params hc hrest haux
          · by_cases h₂ : startsWithColon s = true
            · have h₃ : regexShape s = false := hsh s (by simp)
              obtain ⟨hr, hst, -, hch, -⟩ :=
                childOrCreate_param_ok compile h₂ h₃ hcoc
              have hlk : alookup nA.children s = none := by
                rw [hch]
                refine alookup_eq_none (fun kc hm heq => ?_)
                have h₄ := (hok.self.2 kc hm).2
                rw [heq] at h₄
                simp [h₂] at h₄
              simp [Node.install, h₁, h₂, h₃, findSegs, chooseChild, hlk, hr]
              exact ih c c₁ (aupsert params c₁.paramName s) hc hrest haux
            · simp [Node.install, h₁, h₂, findSegs, chooseChild,
                alookup_aupsert_self]
              exact ih c c₁ params hc hrest haux

/-!  The claims. -/

/-- C2: after a successful `addRoute(m, p, h)` on any router (including for
the root path), a second `addRoute(m, p, h₁)` for the same method and the
exact same path fails with the corresponding conflict panic of src/route.go
(line 49 for the root, line 65 otherwise), and leaves the router unchanged:
a handler, once set, is never overwritten. -/
theorem claim2_duplicate_conflict (compile : String → Option Rx)
    (r r₁ : Router H Rx) (m p : String) (h h₁ : H)
    (hfirst : addRoute compile r m p h = (r₁, none)) :
    addRoute compile r₁ m p h₁ =
      (r₁, some (if p = "/" then .rootConflict else .dupPathConflict p)) := by
  by_cases hp₁ : p = ""
  · simp [addRoute, hp₁] at hfirst
  · by_cases hp₂ : p.data.head? = some '/'
    · by_cases hp₄ : p = "/"
      · cases hh : ((alookup r m).getD (rootNode : Node H Rx)).handler with
        | some hv => simp [addRoute, hp₁, hp₂, hp₄, hh] at hfirst
        | none =>
          simp [addRoute, hp₁, hp₂, hp₄, hh] at hfirst
          have hl₁ : alookup
              (aupsert r m (((alookup r m).getD (rootNode : Node H Rx)).setHandler h)) m =
              some (((alookup r m).getD (rootNode : Node H Rx)).setHandler h) :=
            alookup_aupsert_self _ _ _
          rw [← hfirst]
          simp [addRoute, hp₁, hp₂, hp₄, hl₁, aupsert_lookup_eq _ _ _ hl₁]
      · by_cases hp₃ : p.data.getLast? = some '/'
        · simp [addRoute, hp₁, hp₂, hp₃, hp₄] at hfirst
        · simp [addRoute, hp₁, hp₂, hp₃, hp₄] at hfirst
          obtain ⟨h₅, h₆⟩ := hfirst
          have hA : addSegs compile ((alookup r m).getD (rootNode : Node H Rx)) p
              (splitSegs p.data.tail) h =
              ((addSegs compile ((alookup r m).getD (rootNode : Node H Rx)) p
                (splitSegs p.data.tail) h).1, none) := by
            rw [← h₆]
          have hrep := addSegs_replay compile p h h₁ (splitSegs p.data.tail) _ _ hA
          have hl₁ : alookup r₁ m =
              some ((addSegs compile ((alookup r m).getD (rootNode : Node H Rx)) p
                (splitSegs p.data.tail) h).1) := by
            rw [← h₅]
            exact alookup_aupsert_self _ _ _
          have haup : aupsert r₁ m
              ((addSegs compile ((alookup r m).getD (rootNode : Node H Rx)) p
                (splitSegs p.data.tail) h).1) = r₁ :=
            aupsert_lookup_eq _ _ _ hl₁
          simp [addRoute, hp₁, hp₂, hp₃, hp₄, hl₁, hrep, haup]
    · simp [addRoute, hp₁, hp₂] at hfirst

/-- C2 witness: registering the path twice under one method conflicts. -/
theorem claim2_witness :
    addRoute cnone
        (addRoute cnone (newRouter : Router Nat Nat) "GET" "/user/home" 1).1
        "GET" "/user/home" 2 =
      ((addRoute cnone (newRouter : Router Nat Nat) "GET" "/user/home" 1).1,
        some (if "/user/home" = "/" then .rootConflict
          else .dupPathConflict "/user/home")) :=
  claim2_duplicate_conflict cnone _ _ "GET" "/user/home" 1 2 rfl

/-- C3 (amended): on a fresh router, `addRoute` fails with a validation panic
precisely when the path is empty, lacks the leading slash, has a non-root
trailing slash, or is not the root path and splits into some empty segment.
The amendment adds the last guard: for the root path the split of the empty
remainder is the one-element list with the empty string, yet registration
succeeds, because src/route.go line 47 returns before the split. -/
theorem claim3_validation_iff (compile : String → Option Rx) (m p : String)
    (h : H) :
    errIsValidation (addRoute compile (newRouter : Router H Rx) m p h).2 = true ↔
      (p = "" ∨ p.data.head? ≠ some '/' ∨
        (p ≠ "/" ∧ p.data.getLast? = some '/') ∨
        (p ≠ "/" ∧ "" ∈ splitSegs (p.data.drop 1))) := by
  by_cases h₁ : p = ""
  · simp [addRoute, h₁, errIsValidation, RouteError.isValidation]
  · by_cases h₂ : p.data.head? = some '/'
    · by_cases h₄ : p = "/"
      · simp [addRoute, h₁, h₂, h₄, errIsValidation, newRouter, alookup,
          rootNode, freshStatic]
      · by_cases h₃ : p.data.getLast? = some '/'
        · simp [addRoute, h₁, h₂, h₃, h₄, errIsValidation,
            RouteError.isValidation]
        · have hE := addSegs_err_emptyN compile p h (splitSegs p.data.tail)
            (rootNode : Node H Rx) emptyN_rootNode
          by_cases h₅ : "" ∈ splitSegs p.data.tail
          · rw [if_pos h₅] at hE
            simp [addRoute, h₁, h₂, h₃, h₄, newRouter, alookup, hE,
              errIsValidation, RouteError.isValidation, List.drop_one, h₅]
          · rw [if_neg h₅] at hE
            simp [addRoute, h₁, h₂, h₃, h₄, newRouter, alookup, hE,
              errIsValidation, List.drop_one, h₅]
    · simp [addRoute, h₁, h₂, errIsValidation, RouteError.isValidation]

/-- C3 witness: a trailing slash is rejected as a validation failure. -/
theorem claim3_witness :
    errIsValidation
        (addRoute cnone (newRouter : Router Nat Nat) "GET" "/a/" (0 : Nat)).2 =
      true :=
  (claim3_validation_iff cnone "GET" "/a/" 0).mpr (by decide)

/-- C3 counterexample: at the root path the claimed equivalence fails as
stated.  Splitting the text after the leading slash of the root path yields
the one-element list holding the empty segment, so the claimed condition
holds, yet `addRoute("GET", "/", h)` on a fresh router succeeds with no
validation failure. -/
theorem claim3_counterexample :
    ¬ (errIsValidation
          (addRoute cnone (newRouter : Router Nat Nat) "GET" "/" (0 : Nat)).2 =
            true ↔
        (("/" : String) = "" ∨ ("/" : String).data.head? ≠ some '/' ∨
          (("/" : String) ≠ "/" ∧ ("/" : String).data.getLast? = some '/') ∨
          "" ∈ splitSegs (("/" : String).data.drop 1))) := by
  decide

/-- C4: on every router built by successful `addRoute` calls, every node of
every method tree has at most one of the wildcard, param and regex child
slots occupied. -/
theorem claim4_exclusive (compile : String → Option Rx) (r : Router H Rx)
    (hr : Reachable compile r) (m : String) (root : Node H Rx)
    (hl : alookup r m = some root) : NodesOK exclusiveAt root :=
  NodesOK_mono (fun _ hp => hp.1) (Reachable_inv compile hr m root hl)

/-- C5: during registration every raw nonempty segment resolves in the fixed
order of src/route.go lines 131-202: the star segment to the wildcard child;
otherwise a colon-led segment of regex shape to the regex child, whose
paramName is the text between the colon and the first opening parenthesis;
otherwise a colon-led segment to the param child, whose paramName is the text
after the colon; any other segment to the static child keyed by the literal
segment text, created on first use.  The paramName facts about an already
existing child are hypotheses; creation establishes them, so they hold on
every tree the registration loop builds. -/
theorem claim5_classification (compile : String → Option Rx)
    (n n₁ c : Node H Rx) (s : String) (hs : s ≠ "")
    (hregName : ∀ c₀, n.regChild = some c₀ →
      c₀.paramName = regParamName c₀.path)
    (hparamName : ∀ c₀, n.paramChild = some c₀ →
      c₀.paramName = String.mk (c₀.path.data.drop 1))
    (hok : n.childOrCreate compile s = .ok (n₁, c)) :
    (s = "*" → n₁.starChild = some c) ∧
    (regexShape s = true →
      n₁.regChild = some c ∧ c.paramName = regParamName s) ∧
    (startsWithColon s = true → regexShape s = false →
      n₁.paramChild = some c ∧ c.paramName = String.mk (s.data.drop 1)) ∧
    (s ≠ "*" → startsWithColon s = false →
      alookup n₁.children s = some c ∧
        (alookup n.children s = none → c = freshStatic s)) := by
  refine ⟨?_, ?_, ?_, ?_⟩
  · intro h₁
    subst h₁
    unfold Node.childOrCreate at hok
    rw [if_pos rfl] at hok
    cases hst : n.starChild with
    | some c₀ =>
      simp [hst] at hok
      obtain ⟨h₂, h₃⟩ := hok
      subst h₂
      simp [hst, h₃]
    | none =>
      cases hr : n.regChild with
      | some c₀ => simp [hst, hr] at hok
      | none =>
        cases hp : n.paramChild with
        | some c₀ => simp [hst, hr, hp] at hok
        | none =>
          simp [hst, hr, hp] at hok
          obtain ⟨h₂, h₃⟩ := hok
          subst h₂
          simp [h₃]
  · intro hsh
    have hcolon := startsWithColon_of_regexShape hsh
    have hstar := ne_star_of_colon hcolon
    unfold Node.childOrCreate at hok
    rw [if_neg hstar, if_pos hcolon, if_pos hsh] at hok
    cases hp : n.paramChild with
    | some c₀ => simp [hp] at hok
    | none =>
      cases hst : n.starChild with
      | some c₀ => simp [hp, hst] at hok
      | none =>
        cases hr : n.regChild with
        | some c₀ =>
          simp [hp, hst, hr] at hok
          by_cases hcp : c₀.path = s
          · simp [hcp] at hok
            obtain ⟨h₂, h₃⟩ := hok
            subst h₂
            rw [← h₃, hr, hregName c₀ hr, hcp]
            simp
          · simp [hcp] at hok
        | none =>
          simp [hp, hst, hr] at hok
          obtain ⟨h₂, h₃⟩ := hok
          subst h₂
          simp [← h₃, freshReg]
  · intro hcolon hsh
    have hstar := ne_star_of_colon hcolon
    unfold Node.childOrCreate at hok
    rw [if_neg hstar, if_pos hcolon, if_neg (by simp [hsh])] at hok
    cases hr : n.regChild with
    | some c₀ => simp [hr] at hok
    | none =>
      cases hst : n.starChild with
      | some c₀ => simp [hr, hst] at hok
      | none =>
        cases hp : n.paramChild with
        | some c₀ =>
          simp [hr, hst, hp] at hok
          by_cases hcp : c₀.path = s
          · simp [hcp] at hok
            obtain ⟨h₂, h₃⟩ := hok
            subst h₂
            rw [← h₃, hp, hparamName c₀ hp, hcp]
            simp
          · simp [hcp] at hok
        | none =>
          simp [hr, hst, hp] at hok
          obtain ⟨h₂, h₃⟩ := hok
          subst h₂
          simp [← h₃, freshParam]
  · intro h₁ h₂
    unfold Node.childOrCreate at hok
    rw [if_neg h₁, if_neg (by simp [h₂])] at hok
    cases hl : alookup n.children s with
    | some c₀ =>
      simp [hl] at hok
      obtain ⟨h₃, h₄⟩ := hok
      subst h₃
      simp [hl, h₄]
    | none =>
      simp [hl] at hok
      obtain ⟨h₃, h₄⟩ := hok
      subst h₃
      simp [← h₄, alookup_aupsert_self]

/-- C5 witness: a plain colon segment on the fresh root resolves to a newly
created param child carrying the text after the colon. -/
theorem claim5_witness :
    ((rootNode : Node Nat Nat).setParam (some (freshParam ":id"))).paramChild =
        some (freshParam ":id") ∧
      (freshParam ":id" : Node Nat Nat).paramName =
        String.mk (":id".data.drop 1) := by
  have h := claim5_classification cnone (rootNode : Node Nat Nat)
    (rootNode.setParam (some (freshParam ":id"))) (freshParam ":id") ":id"
    (by decide)
    (by intro c₀ hc; simp [rootNode, freshStatic] at hc)
    (by intro c₀ hc; simp [rootNode, freshStatic] at hc)
    rfl
  exact h.2.2.1 (by decide) (by decide)

/-- C6: at a node whose one occupied slot among {param, regex, wildcard} is
the param (resp. regex) slot, `childOrCreate` on an identical param (resp.
regex) segment returns the existing child and changes nothing, while a
different segment text of the same kind fails with the conflict panic of
src/route.go line 183 (resp. line 161). -/
theorem claim6_idempotent_or_conflict (compile : String → Option Rx) :
    (∀ (n c : Node H Rx) (s : String), startsWithColon s = true →
      regexShape s = false → n.regChild = none → n.starChild = none →
      n.paramChild = some c → c.path = s →
      n.childOrCreate compile s = .ok (n, c)) ∧
    (∀ (n c : Node H Rx) (s : String), startsWithColon s = true →
      regexShape s = false → n.regChild = none → n.starChild = none →
      n.paramChild = some c → c.path ≠ s →
      n.childOrCreate compile s = .error (.paramParamConflict c.path s)) ∧
    (∀ (n c : Node H Rx) (s : String), regexShape s = true →
      n.paramChild = none → n.starChild = none → n.regChild = some c →
      c.path = s → n.childOrCreate compile s = .ok (n, c)) ∧
    (∀ (n c : Node H Rx) (s : String), regexShape s = true →
      n.paramChild = none → n.starChild = none → n.regChild = some c →
      c.path ≠ s →
      n.childOrCreate compile s = .error (.regRegConflict c.path s)) := by
  refine ⟨?_, ?_, ?_, ?_⟩
  · intro n c s hcolon hsh hr hst hp hcp
    simp [Node.childOrCreate, ne_star_of_colon hcolon, hcolon, hsh, hr, hst,
      hp, hcp]
  · intro n c s hcolon hsh hr hst hp hcp
    simp [Node.childOrCreate, ne_star_of_colon hcolon, hcolon, hsh, hr, hst,
      hp, hcp]
  · intro n c s hsh hp hst hr hcp
    simp [Node.childOrCreate,
      ne_star_of_colon (startsWithColon_of_regexShape hsh),
      startsWithColon_of_regexShape hsh, hsh, hr, hst, hp, hcp]
  · intro n c s hsh hp hst hr hcp
    simp [Node.childOrCreate,
      ne_star_of_colon (startsWithColon_of_regexShape hsh),
      startsWithColon_of_regexShape hsh, hsh, hr, hst, hp, hcp]

/-- C6 witness: under one method, a second param segment with the same text
reconciles, and a different text conflicts, as for /user/:id then
/user/:name. -/
theorem claim6_witness :
    ((rootNode : Node Nat Nat).setParam (some (freshParam ":id"))).childOrCreate
        cnone ":id" =
      .ok (rootNode.setParam (some (freshParam ":id")), freshParam ":id") ∧
    ((rootNode : Node Nat Nat).setParam (some (freshParam ":id"))).childOrCreate
        cnone ":name" =
      .error (.paramParamConflict ":id" ":name") := by
  constructor
  · exact (claim6_idempotent_or_conflict cnone).1
      (rootNode.setParam (some (freshParam ":id"))) (freshParam ":id") ":id"
      (by decide) (by decide) (by simp [rootNode, freshStatic])
      (by simp [rootNode, freshStatic]) (by simp) (by decide)
  · exact (claim6_idempotent_or_conflict cnone).2.1
      (rootNode.setParam (some (freshParam ":id"))) (freshParam ":id") ":name"
      (by decide) (by decide) (by simp [rootNode, freshStatic])
      (by simp [rootNode, freshStatic]) (by simp) (by decide)

/-- C7: the wildcard slot conflicts with an occupied param or regex slot and
the param and regex slots conflict with an occupied wildcard slot, in either
order of registration, and a regex segment conflicts with an occupied param
slot and a param segment with an occupied regex slot (src/route.go lines
135-141, 151-157, 173-179). -/
theorem claim7_mixing_conflicts (compile : String → Option Rx) :
    (∀ (n c : Node H Rx), n.starChild = none → n.regChild = some c →
      n.childOrCreate compile "*" = .error .starRegConflict) ∧
    (∀ (n c : Node H Rx), n.starChild = none → n.regChild = none →
      n.paramChild = some c →
      n.childOrCreate compile "*" = .error .starParamConflict) ∧
    (∀ (n c : Node H Rx) (s : String), regexShape s = true →
      n.paramChild = some c →
      n.childOrCreate compile s = .error (.regParamConflict s)) ∧
    (∀ (n c : Node H Rx) (s : String), regexShape s = true →
      n.paramChild = none → n.starChild = some c →
      n.childOrCreate compile s = .error (.regStarConflict s)) ∧
    (∀ (n c : Node H Rx) (s : String), startsWithColon s = true →
      regexShape s = false → n.regChild = some c →
      n.childOrCreate compile s = .error (.paramRegConflict s)) ∧
    (∀ (n c : Node H Rx) (s : String), startsWithColon s = true →
      regexShape s = false → n.regChild = none → n.starChild = some c →
      n.childOrCreate compile s = .error (.paramStarConflict s)) := by
  refine ⟨?_, ?_, ?_, ?_, ?_, ?_⟩
  · intro n c hst hr
    simp [Node.childOrCreate, hst, hr]
  · intro n c hst hr hp
    simp [Node.childOrCreate, hst, hr, hp]
  · intro n c s hsh hp
    simp [Node.childOrCreate,
      ne_star_of_colon (startsWithColon_of_regexShape hsh),
      startsWithColon_of_regexShape hsh, hsh, hp]
  · intro n c s hsh hp hst
    simp [Node.childOrCreate,
      ne_star_of_colon (startsWithColon_of_regexShape hsh),
      startsWithColon_of_regexShape hsh, hsh, hp, hst]
  · intro n c s hcolon hsh hr
    simp [Node.childOrCreate, ne_star_of_colon hcolon, hcolon, hsh, hr]
  · intro n c s hcolon hsh hr hst
    simp [Node.childOrCreate, ne_star_of_colon hcolon, hcolon, hsh, hr, hst]

/-- C7 witness: a wildcard after /user/:id conflicts, and a param segment
after /user/* conflicts, mirroring both registration orders. -/
theorem claim7_witness :
    ((rootNode : Node Nat Nat).setParam (some (freshParam ":id"))).childOrCreate
        cnone "*" = .error .starParamConflict ∧
    ((rootNode : Node Nat Nat).setStar (some freshStar)).childOrCreate
        cnone ":id" = .error (.paramStarConflict ":id") := by
  constructor
  · exact (claim7_mixing_conflicts cnone).2.1
      (rootNode.setParam (some (freshParam ":id"))) (freshParam ":id")
      (by simp [rootNode, freshStatic]) (by simp [rootNode, freshStatic]) (by simp)
  · exact (claim7_mixing_conflicts cnone).2.2.2.2.2
      (rootNode.setStar (some freshStar)) freshStar ":id"
      (by decide) (by decide) (by simp [rootNode, freshStatic]) (by simp)

/-- C8: registering the root path sets the handler directly on the root node
of the method (creating only that root when the method is new) and conflicts
when the root handler is already set (src/route.go lines 47-53). -/
theorem claim8_root (compile : String → Option Rx) (r : Router H Rx)
    (m : String) (h : H) :
    (((alookup r m).getD (rootNode : Node H Rx)).handler = none →
      addRoute compile r m "/" h =
        (aupsert r m (((alookup r m).getD (rootNode : Node H Rx)).setHandler h),
          none)) ∧
    (∀ h₀, ((alookup r m).getD (rootNode : Node H Rx)).handler = some h₀ →
      addRoute compile r m "/" h =
        (aupsert r m ((alookup r m).getD (rootNode : Node H Rx)),
          some .rootConflict)) ∧
    (((alookup r m).getD (rootNode : Node H Rx)).setHandler h).children =
      ((alookup r m).getD (rootNode : Node H Rx)).children ∧
    (((alookup r m).getD (rootNode : Node H Rx)).setHandler h).starChild =
      ((alookup r m).getD (rootNode : Node H Rx)).starChild ∧
    (((alookup r m).getD (rootNode : Node H Rx)).setHandler h).paramChild =
      ((alookup r m).getD (rootNode : Node H Rx)).paramChild ∧
    (((alookup r m).getD (rootNode : Node H Rx)).setHandler h).regChild =
      ((alookup r m).getD (rootNode : Node H Rx)).regChild := by
  refine ⟨?_, ?_, by simp, by simp, by simp, by simp⟩
  · intro hh
    simp [addRoute, hh]
  · intro h₀ hh
    simp [addRoute, hh]

/-- C8 witness: root registration on a fresh router, then the conflict. -/
theorem claim8_witness :
    addRoute cnone (newRouter : Router Nat Nat) "GET" "/" 5 =
        (aupsert (newRouter : Router Nat Nat) "GET"
          (((alookup (newRouter : Router Nat Nat) "GET").getD rootNode).setHandler 5),
          none) ∧
      addRoute cnone
          (aupsert (newRouter : Router Nat Nat) "GET"
            (((alookup (newRouter : Router Nat Nat) "GET").getD rootNode).setHandler 5))
          "GET" "/" 6 =
        (aupsert
            (aupsert (newRouter : Router Nat Nat) "GET"
              (((alookup (newRouter : Router Nat Nat) "GET").getD rootNode).setHandler 5))
            "GET"
            ((alookup
                (aupsert (newRouter : Router Nat Nat) "GET"
                  (((alookup (newRouter : Router Nat Nat) "GET").getD rootNode).setHandler 5))
                "GET").getD rootNode),
          some .rootConflict) :=
  ⟨(claim8_root cnone (newRouter : Router Nat Nat) "GET" 5).1 rfl,
    (claim8_root cnone _ "GET" 6).2.1 5 rfl⟩

/-- C9: the discarded result of the regular-expression compiler never changes
whether registration fails, and for a regex-shaped segment whose expression
does not compile the regex child is still created, with the paramName from
the segment and no compiled pattern (src/route.go line 167 drops the error of
`regexp.Compile`). -/
theorem claim9_compile_discard (compile₁ compile₂ : String → Option Rx)
    (n : Node H Rx) (s : String) :
    excErr (n.childOrCreate compile₁ s) = excErr (n.childOrCreate compile₂ s) ∧
    (regexShape s = true → n.paramChild = none → n.starChild = none →
      n.regChild = none → compile₁ (regExprText s) = none →
      n.childOrCreate compile₁ s =
        .ok (n.setReg (some (freshReg compile₁ s)), freshReg compile₁ s) ∧
      (freshReg compile₁ s : Node H Rx).regExpr = none ∧
      (freshReg compile₁ s : Node H Rx).paramName = regParamName s) := by
  constructor
  · by_cases h₁ : s = "*"
    · subst h₁
      cases hst : n.starChild with
      | some c₀ => simp [Node.childOrCreate, hst, excErr]
      | none =>
        cases hr : n.regChild with
        | some c₀ => simp [Node.childOrCreate, hst, hr, excErr]
        | none =>
          cases hp : n.paramChild with
          | some c₀ => simp [Node.childOrCreate, hst, hr, hp, excErr]
          | none => simp [Node.childOrCreate, hst, hr, hp, excErr]
    · by_cases h₂ : startsWithColon s = true
      · by_cases h₃ : regexShape s = true
        · cases hp : n.paramChild with
          | some c₀ => simp [Node.childOrCreate, h₁, h₂, h₃, hp, excErr]
          | none =>
            cases hst : n.starChild with
            | some c₀ => simp [Node.childOrCreate, h₁, h₂, h₃, hp, hst, excErr]
            | none =>
              cases hr : n.regChild with
              | some c₀ =>
                by_cases hcp : c₀.path = s <;>
                  simp [Node.childOrCreate, h₁, h₂, h₃, hp, hst, hr, hcp, excErr]
              | none =>
                simp [Node.childOrCreate, h₁, h₂, h₃, hp, hst, hr, excErr]
        · cases hr : n.regChild with
          | some c₀ => simp [Node.childOrCreate, h₁, h₂, h₃, hr, excErr]
          | none =>
            cases hst : n.starChild with
            | some c₀ => simp [Node.childOrCreate, h₁, h₂, h₃, hr, hst, excErr]
            | none =>
              cases hp : n.paramChild with
              | some c₀ =>
                by_cases hcp : c₀.path = s <;>
                  simp [Node.childOrCreate, h₁, h₂, h₃, hr, hst, hp, hcp, excErr]
              | none =>
                simp [Node.childOrCreate, h₁, h₂, h₃, hr, hst, hp, excErr]
      · cases hl : alookup n.children s with
        | some c₀ => simp [Node.childOrCreate, h₁, h₂, hl, excErr]
        | none => simp [Node.childOrCreate, h₁, h₂, hl, excErr]
  · intro hsh hp hst hr hc
    refine ⟨?_, by simp [freshReg, hc], by simp [freshReg]⟩
    simp [Node.childOrCreate, ne_star_of_colon (startsWithColon_of_regexShape hsh),
      startsWithColon_of_regexShape hsh, hsh, hp, hst, hr]

/-- C9 witness: the segment with the lone opening bracket, whose expression
Go regexp rejects, still registers a regex child with no compiled pattern. -/
theorem claim9_witness :
    excErr ((rootNode : Node Nat Nat).childOrCreate cnone ":id([)") =
        excErr ((rootNode : Node Nat Nat).childOrCreate (fun _ => some 0) ":id([)") ∧
      (rootNode : Node Nat Nat).childOrCreate cnone ":id([)" =
        .ok (rootNode.setReg (some (freshReg cnone ":id([)")),
          freshReg cnone ":id([)") ∧
      (freshReg cnone ":id([)" : Node Nat Nat).regExpr = none ∧
      (freshReg cnone ":id([)" : Node Nat Nat).paramName = regParamName ":id([)" := by
  have h := claim9_compile_discard cnone (fun _ => some 0)
    (rootNode : Node Nat Nat) ":id([)"
  exact ⟨h.1, h.2 (by decide) rfl rfl rfl rfl⟩

/-!  The partially built tree a failing registration leaves behind. -/

theorem addSegs_emptySeg_walk (compile : String → Option Rx) (path : String)
    (h : H) :
    ∀ (pre post : List String) (n : Node H Rx), emptyN n →
      ("" ∈ pre → False) →
      (addSegs compile n path (pre ++ "" :: post) h).2 =
          some (.emptySegment path) ∧
        ∀ pre₁ pre₂, pre = pre₁ ++ pre₂ →
          hNone (walk (addSegs compile n path (pre ++ "" :: post) h).1 pre₁) =
            true := by
  intro pre
  induction pre with
  | nil =>
    intro post n he hne
    refine ⟨by simp [addSegs], ?_⟩
    intro pre₁ pre₂ hdec
    have h₁ : pre₁ = [] := (List.append_eq_nil.mp hdec.symm).1
    subst h₁
    simp [addSegs, walk, hNone, he.2.2.2.2]
  | cons s pre ih =>
    intro post n he hne
    have hs : s ≠ "" := fun heq => hne (by simp [heq])
    have hne₁ : "" ∈ pre → False := fun hm => hne (by simp [hm])
    have hcoc := childOrCreate_emptyN compile n s he
    obtain ⟨ih1, ih2⟩ := ih post (freshFor compile s) (emptyN_freshFor compile s) hne₁
    refine ⟨by simp [addSegs, hs, hcoc, ih1], ?_⟩
    intro pre₁ pre₂ hdec
    cases pre₁ with
    | nil =>
      simp [addSegs, hs, hcoc, walk, hNone, install_handler, he.2.2.2.2]
    | cons s₁ pre₃ =>
      simp at hdec
      obtain ⟨h₁, h₂⟩ := hdec
      subst h₁
      simp [addSegs, hs, hcoc, walk, slotChild_install_self]
      exact ih2 pre₃ pre₂ h₂

/-- C10: when `addRoute` on a fresh router fails with the empty-segment
panic, the router is not left unchanged: the method root has been created
and a handler-free node for every prefix of the segments preceding the empty
one remains in that method tree (src/route.go lines 41-61 mutate before the
panic of line 58). -/
theorem claim10_partial_mutation (compile : String → Option Rx) (m p : String)
    (h : H) (pre post : List String)
    (h₁ : p ≠ "") (h₂ : p.data.head? = some '/')
    (h₃ : p.data.getLast? ≠ some '/') (h₄ : p ≠ "/")
    (h₅ : splitSegs (p.data.drop 1) = pre ++ "" :: post)
    (h₆ : "" ∈ pre → False) :
    (addRoute compile (newRouter : Router H Rx) m p h).2 =
        some (.emptySegment p) ∧
      (alookup (addRoute compile (newRouter : Router H Rx) m p h).1 m).isSome =
        true ∧
      ∀ pre₁ pre₂, pre = pre₁ ++ pre₂ →
        hNone (walk
          ((alookup (addRoute compile (newRouter : Router H Rx) m p h).1
            m).getD rootNode) pre₁) = true := by
  rw [List.drop_one] at h₅
  obtain ⟨w₁, w₂⟩ := addSegs_emptySeg_walk compile p h pre post
    (rootNode : Node H Rx) emptyN_rootNode h₆
  rw [← h₅] at w₁ w₂
  refine ⟨?_, ?_, ?_⟩
  · simp [addRoute, h₁, h₂, h₃, h₄, newRouter, alookup, w₁]
  · simp [addRoute, h₁, h₂, h₃, h₄, newRouter, alookup, alookup_aupsert_self]
  · intro pre₁ pre₂ hdec
    have hw := w₂ pre₁ pre₂ hdec
    simp [addRoute, h₁, h₂, h₃, h₄, newRouter, alookup, alookup_aupsert_self]
    simpa [alookup] using hw

/-- C10 witness: the failing path with the doubled slash creates the method
root and the handler-free node for the first segment. -/
theorem claim10_witness :
    (addRoute cnone (newRouter : Router Nat Nat) "GET" "/a//b" 3).2 =
        some (.emptySegment "/a//b") ∧
      (alookup (addRoute cnone (newRouter : Router Nat Nat) "GET" "/a//b" 3).1
        "GET").isSome = true ∧
      hNone (walk
        ((alookup (addRoute cnone (newRouter : Router Nat Nat) "GET" "/a//b" 3).1
          "GET").getD rootNode) ["a"]) = true := by
  have h := claim10_partial_mutation cnone "GET" "/a//b" 3 ["a"] ["b"]
    (by decide) (by decide) (by decide) (by decide) (by decide) (by decide)
  exact ⟨h.1, h.2.1, h.2.2 ["a"] [] rfl⟩

/-- C1 counterexample: the round trip fails as stated for a regex route.
The registration of the digits route succeeds, but looking up the literal
registered path finds nothing: the regex child is taken only when the
compiled pattern matches the segment, and the anchored digits pattern does
not match its own source text, while no param, static or wildcard sibling
exists.  The concrete instance gives the compiled digits pattern its Go
semantics: it accepts exactly the nonempty all-digit segments. -/
theorem claim1_counterexample :
    (addRoute cid (newRouter : Router Nat String) "GET" "/a/:id(^[0-9]+$)" 7).2 =
        none ∧
      findRoute rxGo
        (addRoute cid (newRouter : Router Nat String) "GET" "/a/:id(^[0-9]+$)" 7).1
        "GET" "/a/:id(^[0-9]+$)" = none :=
  ⟨rfl, rfl⟩

/-- C1 (amended): after a successful `addRoute(m, p, h)` on a router built by
successful registrations, and provided no segment of `p` has the regex shape,
`findRoute(m, p)` finds a node whose handler is `h`.  The amendment excludes
regex segments: for those the lookup of the literal registered path applies
the compiled pattern to the pattern text itself, which need not match. -/
theorem claim1_found (compile : String → Option Rx)
    (rxM : Rx → String → Bool) (r r₁ : Router H Rx) (m p : String) (h : H)
    (hre : Reachable compile r) (hadd : addRoute compile r m p h = (r₁, none))
    (hsh : ∀ s ∈ splitSegs (p.data.drop 1), regexShape s = false) :
    foundHandler (findRoute rxM r₁ m p) = some h := by
  by_cases hp₁ : p = ""
  · simp [addRoute, hp₁] at hadd
  · by_cases hp₂ : p.data.head? = some '/'
    · by_cases hp₄ : p = "/"
      · cases hh : ((alookup r m).getD (rootNode : Node H Rx)).handler with
        | some hv => simp [addRoute, hp₁, hp₂, hp₄, hh] at hadd
        | none =>
          simp [addRoute, hp₁, hp₂, hp₄, hh] at hadd
          rw [← hadd]
          simp [findRoute, hp₄, alookup_aupsert_self, foundHandler]
      · by_cases hp₃ : p.data.getLast? = some '/'
        · simp [addRoute, hp₁, hp₂, hp₃, hp₄] at hadd
        · simp [addRoute, hp₁, hp₂, hp₃, hp₄] at hadd
          obtain ⟨h₅, h₆⟩ := hadd
          have hroot₀ : NodesOK invP ((alookup r m).getD (rootNode : Node H Rx)) := by
            cases hl : alookup r m with
            | some rt => simpa using Reachable_inv compile hre m rt hl
            | none =>
              simpa using (NodesOK_rootNode : NodesOK invP (rootNode : Node H Rx))
          have hA : addSegs compile ((alookup r m).getD (rootNode : Node H Rx)) p
              (splitSegs p.data.tail) h =
              ((addSegs compile ((alookup r m).getD (rootNode : Node H Rx)) p
                (splitSegs p.data.tail) h).1, none) := by
            rw [← h₆]
          have hfind := findSegs_after_addSegs compile rxM p h
            (splitSegs p.data.tail) _ _ [] hroot₀
            (by rw [List.drop_one] at hsh; exact hsh) hA
          rw [← h₅]
          simp [findRoute, hp₄, alookup_aupsert_self]
          exact hfind
    · simp [addRoute, hp₁, hp₂] at hadd

/-- C1 witness: a static route on a fresh router round-trips. -/
theorem claim1_witness :
    foundHandler (findRoute rxnone
      (addRoute cnone (newRouter : Router Nat Nat) "GET" "/a/b" 7).1
      "GET" "/a/b") = some 7 :=
  claim1_found cnone rxnone (newRouter : Router Nat Nat)
    (addRoute cnone (newRouter : Router Nat Nat) "GET" "/a/b" 7).1
    "GET" "/a/b" 7 Reachable.base rfl (by decide)

/-- C4 witness: the tree grown by one mixed registration is exclusive. -/
theorem claim4_witness :
    NodesOK exclusiveAt
      ((alookup
          (addRoute cnone (newRouter : Router Nat Nat) "GET" "/user/:id" 5).1
          "GET").getD rootNode) :=
  claim4_exclusive cnone
    (addRoute cnone (newRouter : Router Nat Nat) "GET" "/user/:id" 5).1
    (Reachable.step (m := "GET") (p := "/user/:id") (h := 5)
      Reachable.base rfl) "GET" _ rfl

end WebRoute
